import Mathlib

/-!
Verification of the clip-production pipeline of the TGBOTColab1 repository
(`video_editor.py`, `video_processor.py`).  Durations and timestamps, floats
in the Python source, are embedded as rationals; integer truncation `int(x)`
on nonnegative values is embedded as `Nat.floor`; code that can raise is
embedded as `Except`/`Option`; results of external processes (ffmpeg,
nvidia-smi) are abstracted as boolean/optional oracle fields of an
environment record.  Definitions come first, then the theorems.
-/

namespace TGBot

/-- A clip task as planned by `VideoEditor.create_clips_parallel`
(video_editor.py lines 98-121): dict with `start_time`, `duration` and the
`clip_index` used in the output filename `clip_{clip_index:03d}.mp4`. -/
structure ClipTask where
  startTime : ℚ
  duration : ℚ
  clipIndex : ℕ
deriving DecidableEq, Repr

/-- Embedding of the planning loop of `VideoEditor.create_clips_parallel`
(video_editor.py lines 99-121):
`while current_time < total_duration:` break when
`remaining_time < clip_duration`, otherwise append a task of exactly
`clip_duration` starting at `current_time` and advance by `clip_duration`.
The loop is made structural with a fuel argument; `create_clips_plan`
supplies sufficient fuel whenever the clip duration is positive (for a
nonpositive clip duration the Python loop does not terminate). -/
def planLoop (total d : ℚ) : ℕ → ℚ → ℕ → List ClipTask
  | 0, _, _ => []
  | fuel + 1, current, idx =>
    if current < total then
      if total - current < d then []
      else ⟨current, d, idx⟩ :: planLoop total d fuel (current + d) (idx + 1)
    else []

/-- The list `clips_to_create` computed by `create_clips_parallel` for a
video of duration `total`, clip duration `d` and `start_index`. -/
def create_clips_plan (total d : ℚ) (startIndex : ℕ) : List ClipTask :=
  planLoop total d (⌊total / d⌋₊ + 1) 0 startIndex

/-- A per-clip task inside one chunk, as planned by
`VideoProcessor._process_chunk_parallel` (video_processor.py lines 663-680):
start offset inside the chunk, the configured clip duration (an `int` from
the config), and the 1-based `clip_number` used in the output filename
`clip_{clip_number:03d}.mp4`. -/
structure PieceTask where
  startTime : ℚ
  duration : ℕ
  clipNumber : ℕ
deriving DecidableEq, Repr

/-- Embedding of the piece-planning loop of `_process_chunk_parallel`
(video_processor.py lines 670-680): `while current_time + duration <=
chunk_duration`, schedule a piece with `clip_number = clip_index + 1` and
advance `current_time` and `clip_index`.  Fuel makes the recursion
structural; `process_chunk_plan` supplies enough fuel for any positive
clip duration. -/
def pieceLoop (chunkDur : ℚ) (d : ℕ) : ℕ → ℚ → ℕ → List PieceTask
  | 0, _, _ => []
  | fuel + 1, current, idx =>
    if current + d ≤ chunkDur then
      ⟨current, d, idx + 1⟩ :: pieceLoop chunkDur d fuel (current + d) (idx + 1)
    else []

/-- `start_clip_index = chunk_index * int(300 // duration)`
(video_processor.py line 667). -/
def start_clip_index (chunkIndex d : ℕ) : ℕ := chunkIndex * (300 / d)

/-- The pieces scheduled by `_process_chunk_parallel` for chunk number
`chunkIndex` of probed duration `chunkDur` with clip duration `d`. -/
def process_chunk_plan (chunkDur : ℚ) (d chunkIndex : ℕ) : List PieceTask :=
  pieceLoop chunkDur d (⌊chunkDur / (d : ℚ)⌋₊ + 1) 0
    (start_clip_index chunkIndex d)

/-- `num_chunks = math.ceil(total_duration / chunk_duration)`
(video_processor.py line 176); both operands are ints and the quotient is
positive, so the float ceiling is the exact rational ceiling. -/
def num_chunks (total chunkDuration : ℕ) : ℕ :=
  ⌈(total : ℚ) / (chunkDuration : ℚ)⌉₊

/-- The chunk tasks planned by `VideoProcessor.split_into_chunks`
(video_processor.py lines 183-195) once `total > chunkDuration`:
`start_time = i * chunk_duration`,
`actual_duration = min(chunk_duration, total_duration - start_time)`. -/
def split_chunk_tasks (total chunkDuration : ℕ) : List (ℕ × ℕ) :=
  (List.range (num_chunks total chunkDuration)).map
    (fun i => (i * chunkDuration, min chunkDuration (total - i * chunkDuration)))

/-- Embedding of `VideoProcessor.split_into_chunks` (video_processor.py
lines 163-268).  `probe` is the outcome of `get_video_info` on the source
(`error` when it raises); `chunkOk i` abstracts whether
`_create_chunk_ultra_fast` reported chunk `i` as created (its exceptions
are already turned into non-True results by `gather` with
`return_exceptions=True`).  The enclosing try/except turns any raised
exception into the fallback return `[video_path]`; durations are
nonnegative, so `int(video_info['duration'])` is `Nat.floor`. -/
def split_into_chunks (videoPath : String) (chunkDuration : ℕ)
    (probe : Except String ℚ) (chunkOk : ℕ → Bool) : List String :=
  match probe with
  | Except.error _ => [videoPath]
  | Except.ok dur =>
    let total : ℕ := ⌊dur⌋₊
    if total ≤ chunkDuration then [videoPath]
    else
      (List.range (num_chunks total chunkDuration)).filterMap
        (fun i => if chunkOk i
          then some ("temp/chunk_" ++ toString i ++ ".mp4") else none)

/-- A caption produced by the transcription collaborator: the dict
`{'start': …, 'end': …, 'text': …}` of the source; the key `end` is a
reserved word in Lean, so the field is called `stop`. -/
structure Caption where
  start : ℚ
  stop : ℚ
  text : String
deriving DecidableEq, Repr

/-- Embedding of the caption re-slicing in
`VideoEditor._add_animated_subtitles` (video_editor.py lines 576-592): for
each caption shift by the clip's source start offset, keep it when
`sub_end > 0 and sub_start < duration`, and clamp the kept window to
`[max(0, sub_start), min(duration, sub_end)]`.  The source binds
`sub_start`/`sub_end` first; they are inlined here. -/
def segment_subtitles (subtitles : List Caption) (startTime duration : ℚ) :
    List Caption :=
  subtitles.filterMap (fun sub =>
    if 0 < sub.stop - startTime ∧ sub.start - startTime < duration then
      some ⟨max 0 (sub.start - startTime), min duration (sub.stop - startTime),
        sub.text⟩
    else none)

/-- Embedding of the foreground geometry of
`VideoEditor._create_styled_clip_sync` (video_editor.py lines 347-387):
`original_aspect = w / h`, `center_video_height = int(1920 * 0.8)` (which
is exactly 1536, also under Python float evaluation), both branches of the
wide/tall fork set `target_height = center_video_height` and
`target_width = int(target_height * original_aspect)`, and finally both
sizes are forced even by subtracting `size % 2`.  `int()` on these
nonnegative floats is `Nat.floor`. -/
def compute_foreground_size (w h : ℕ) : ℕ × ℕ :=
  let originalAspect : ℚ := (w : ℚ) / (h : ℚ)
  let targetAspect : ℚ := 1080 / 1920
  let centerVideoHeight : ℕ := ⌊(1920 : ℚ) * (8 / 10)⌋₊
  let p : ℕ × ℕ :=
    if targetAspect < originalAspect then
      (⌊(centerVideoHeight : ℚ) * originalAspect⌋₊, centerVideoHeight)
    else
      (⌊(centerVideoHeight : ℚ) * originalAspect⌋₊, centerVideoHeight)
  (p.1 - p.1 % 2, p.2 - p.2 % 2)

/-- Embedding of the rational-form frame-rate parsing in
`VideoEditor.get_video_info` (video_editor.py lines 34-39):
`fps = float(numerator) / float(denominator)`.  Python float division by
zero raises `ZeroDivisionError`; a raise is the `Except.error` case. -/
def parse_frame_rate (num den : ℚ) : Except String ℚ :=
  if den = 0 then Except.error "ZeroDivisionError" else Except.ok (num / den)

/-- The fps result of `get_video_info` (video_editor.py lines 20-50): its
except-clause logs the exception and re-raises (`raise`), so a parse
failure propagates to the probe's caller unchanged. -/
def get_video_info_fps (num den : ℚ) : Except String ℚ :=
  match parse_frame_rate num den with
  | Except.ok fps => Except.ok fps
  | Except.error e => Except.error e

/-- The external facts the two GPU probes consult.  `none` means the
corresponding subprocess call raised (missing binary, timeout); `some b`
means it ran and the tested condition evaluated to `b`. -/
structure GpuEnv where
  nvidiaSmiOk : Option Bool
  nvencListed : Option Bool
  testEncodeOk : Option Bool
deriving DecidableEq, Repr

/-- Embedding of `VideoProcessor._check_gpu_support` (video_processor.py
lines 482-542): require `nvidia-smi` to exit with code 0, `h264_nvenc` to
appear in `ffmpeg -encoders`, and the one-second `testsrc` NVENC encode of
`_test_gpu_encoding` (lines 544-594) to succeed; any exception anywhere
yields False. -/
def processor_check_gpu_support (env : GpuEnv) : Bool :=
  match env.nvidiaSmiOk with
  | none => false
  | some smi =>
    if !smi then false
    else
      match env.nvencListed with
      | none => false
      | some listed =>
        if !listed then false
        else
          match env.testEncodeOk with
          | none => false
          | some ok => ok

/-- Embedding of `VideoEditor._check_gpu_support` (video_editor.py lines
614-636): only `ffmpeg -hide_banner -encoders` is consulted, and the probe
is true iff `h264_nvenc` occurs in its output; exceptions yield False. -/
def editor_check_gpu_support (env : GpuEnv) : Bool :=
  match env.nvencListed with
  | none => false
  | some listed => listed

/-- The encoders attempted by the final encode stage of
`_create_styled_clip_sync`. -/
inductive Encoder
  | nvenc
  | libx264
deriving DecidableEq, Repr

/-- The external facts one render consults: the GPU probe environment and
whether each ffmpeg encode run completes without raising. -/
structure RenderEnv where
  gpu : GpuEnv
  nvencEncodeOk : Bool
  x264EncodeOk : Bool
deriving DecidableEq, Repr

/-- Embedding of the encode stage of `VideoEditor._create_styled_clip_sync`
(video_editor.py lines 486-569): when the editor's GPU probe is true, run
`h264_nvenc` and on exception fall back exactly once to `libx264`; without
GPU go directly to `libx264`.  Returns the encode attempts in order, and
whether the function returns normally (`true`) or the last exception
propagates (`false`). -/
def create_styled_clip_sync (env : RenderEnv) : List Encoder × Bool :=
  if editor_check_gpu_support env.gpu then
    if env.nvencEncodeOk then ([Encoder.nvenc], true)
    else if env.x264EncodeOk then ([Encoder.nvenc, Encoder.libx264], true)
    else ([Encoder.nvenc, Encoder.libx264], false)
  else
    if env.x264EncodeOk then ([Encoder.libx264], true)
    else ([Encoder.libx264], false)

/-- Embedding of `VideoEditor.create_styled_clip` (video_editor.py lines
269-285): dispatch the sync render, return True when it completes and
False when it raised — it never re-raises to its caller. -/
def create_styled_clip (env : RenderEnv) : Bool :=
  (create_styled_clip_sync env).2

/-- Result collection in `VideoProcessor._process_chunk_parallel`
(video_processor.py lines 706-714): string results are the produced clip
paths; `None` and exception results contribute nothing and stop no
sibling. -/
def collect_created_clips (results : List (Option String)) : List String :=
  results.filterMap id

/-- One entry of the publish result list: the dict returned per clip by the
upload collaborator; `success` is `result.get('success', False)`. -/
structure UploadResult where
  success : Bool
deriving DecidableEq, Repr

/-- Deletion guard of `VideoProcessor.cleanup_successful_files`
(video_processor.py lines 820-838): position `i` may be deleted only when
`i < len(upload_results)` and `upload_results[i].get('success', False)`. -/
def cleanup_should_delete (i : ℕ) (uploadResults : List UploadResult) :
    Bool :=
  decide (i < uploadResults.length) &&
    (uploadResults.getD i ⟨false⟩).success

/-- The clip positions deleted by `cleanup_successful_files` over
`enumerate(clip_paths)`. -/
def cleanup_deleted_indices (clipPaths : List String)
    (uploadResults : List UploadResult) : List ℕ :=
  (List.range clipPaths.length).filter
    (fun i => cleanup_should_delete i uploadResults)

/-- The clip positions `cleanup_successful_files` keeps on disk for a
retry ("не был загружен, сохраняем для повторной попытки"). -/
def cleanup_preserved_indices (clipPaths : List String)
    (uploadResults : List UploadResult) : List ℕ :=
  (List.range clipPaths.length).filter
    (fun i => !cleanup_should_delete i uploadResults)

/-- `process_video_file` (video_processor.py lines 144-151) runs the
cleanup only when at least one upload succeeded; with zero successes every
file is kept. -/
def process_video_file_deleted_indices (clipPaths : List String)
    (uploadResults : List UploadResult) : List ℕ :=
  if 0 < (uploadResults.filter (fun r => r.success)).length then
    cleanup_deleted_indices clipPaths uploadResults
  else []

/-- Helper: the rational floor of a quotient of naturals is natural
division. -/
theorem natFloor_cast_div (a b : ℕ) : ⌊((a : ℚ)) / (b : ℚ)⌋₊ = a / b := by
  rw [Nat.floor_div_nat, Nat.floor_natCast]

/-- Helper: evaluates `⌊7/2⌋₊` for the concrete examples below. -/
theorem natFloor_seven_halves : ⌊(7 : ℚ) / 2⌋₊ = 3 := by
  rw [show (7 : ℚ) = ((7 : ℕ) : ℚ) by norm_num,
    show (2 : ℚ) = ((2 : ℕ) : ℚ) by norm_num, natFloor_cast_div]

example : create_clips_plan 7 2 0 =
    [⟨0, 2, 0⟩, ⟨2, 2, 1⟩, ⟨4, 2, 2⟩] := by
  rw [create_clips_plan, natFloor_seven_halves]
  norm_num [planLoop]

/-- Closed form of the planning loop: starting at `current` it emits exactly
`⌊(total - current)/d⌋₊` tasks of length `d` at consecutive multiples of `d`
from `current`, provided the fuel exceeds that count and `0 < d`. -/
theorem planLoop_eq (total d : ℚ) (hd : 0 < d) :
    ∀ (fuel : ℕ) (current : ℚ) (idx : ℕ),
      ⌊(total - current) / d⌋₊ < fuel →
      planLoop total d fuel current idx =
        (List.range ⌊(total - current) / d⌋₊).map
          (fun j => ⟨current + j * d, d, idx + j⟩) := by
  intro fuel
  induction fuel with
  | zero => intro current idx h; omega
  | succ fuel ih =>
    intro current idx h
    by_cases hrem : total - current < d
    · have hn : ⌊(total - current) / d⌋₊ = 0 := by
        rw [Nat.floor_eq_zero, div_lt_one hd]
        exact hrem
      rw [hn]
      simp [planLoop, hrem]
    · push_neg at hrem
      have hlt : current < total := by linarith
      have hn1 : 1 ≤ ⌊(total - current) / d⌋₊ := by
        apply Nat.le_floor
        rw [Nat.cast_one, le_div_iff₀ hd, one_mul]
        exact hrem
      have hstep : ⌊(total - (current + d)) / d⌋₊ =
          ⌊(total - current) / d⌋₊ - 1 := by
        have h1 : (total - (current + d)) / d = (total - current) / d - 1 := by
          field_simp
          ring
        rw [h1, Nat.floor_sub_one]
      rw [planLoop, if_pos hlt, if_neg (not_lt.mpr hrem),
        ih (current + d) (idx + 1) (by omega)]
      rw [hstep]
      conv_rhs => rw [show ⌊(total - current) / d⌋₊ =
        (⌊(total - current) / d⌋₊ - 1) + 1 by omega]
      rw [List.range_succ_eq_map, List.map_cons, List.map_map]
      congr 1
      · simp
      · apply List.map_congr_left
        intro j _
        simp only [Function.comp_apply]
        rw [ClipTask.mk.injEq]
        refine ⟨by push_cast; ring, rfl, by omega⟩

/-- Helper: the count of planned clips, `⌊total/d⌋₊`, scaled by `d`, is at
most `total` when `0 ≤ total` and `0 < d`. -/
theorem floor_mul_le (total d : ℚ) (hd : 0 < d) (ht : 0 ≤ total) :
    (⌊total / d⌋₊ : ℚ) * d ≤ total := by
  have h1 : (⌊total / d⌋₊ : ℚ) ≤ total / d :=
    Nat.floor_le (div_nonneg ht hd.le)
  calc (⌊total / d⌋₊ : ℚ) * d ≤ (total / d) * d := by
        exact mul_le_mul_of_nonneg_right h1 hd.le
    _ = total := by field_simp

/-- Helper: closed form of `create_clips_plan` for a positive clip
duration. -/
theorem create_clips_plan_eq (total d : ℚ) (startIndex : ℕ) (hd : 0 < d) :
    create_clips_plan total d startIndex =
      (List.range ⌊total / d⌋₊).map
        (fun j => ⟨(j : ℚ) * d, d, startIndex + j⟩) := by
  have h0 : total - 0 = total := sub_zero total
  rw [create_clips_plan,
    planLoop_eq total d hd (⌊total / d⌋₊ + 1) 0 startIndex (by rw [h0]; omega),
    h0]
  apply List.map_congr_left
  intro j _
  rw [ClipTask.mk.injEq]
  exact ⟨zero_add _, rfl, rfl⟩

/-- C1: for every total duration `total ≥ 0` and window length `d > 0`, the
clip-planning loop of `create_clips_parallel` emits exactly `⌊total/d⌋₊`
tasks, each of exactly `d` seconds, starting at consecutive multiples of `d`
from 0, and the sum of the scheduled task lengths is `⌊total/d⌋₊ * d`,
which is at most `total` — the remainder `total mod d` is never scheduled. -/
theorem create_clips_plan_spec (total d : ℚ) (startIndex : ℕ)
    (hd : 0 < d) (ht : 0 ≤ total) :
    (create_clips_plan total d startIndex).length = ⌊total / d⌋₊ ∧
    create_clips_plan total d startIndex =
      (List.range ⌊total / d⌋₊).map
        (fun j => ⟨(j : ℚ) * d, d, startIndex + j⟩) ∧
    ((create_clips_plan total d startIndex).map ClipTask.duration).sum =
      (⌊total / d⌋₊ : ℚ) * d ∧
    (⌊total / d⌋₊ : ℚ) * d ≤ total := by
  have hchar := create_clips_plan_eq total d startIndex hd
  refine ⟨by rw [hchar]; simp, hchar, ?_, floor_mul_le total d hd ht⟩
  rw [hchar, List.map_map]
  have hconst : (ClipTask.duration ∘ fun j : ℕ =>
      (⟨(j : ℚ) * d, d, startIndex + j⟩ : ClipTask)) = fun _ => d := rfl
  rw [hconst]
  induction ⌊total / d⌋₊ with
  | zero => simp
  | succ n ihn =>
    rw [List.range_succ, List.map_append, List.sum_append]
    rw [ihn]
    push_cast
    simp
    ring

/-- Witness for C1 at `total = 7`, `d = 2`: three tasks, total scheduled
length at most 7. -/
theorem create_clips_plan_spec_witness :
    (create_clips_plan 7 2 0).length = 3 ∧
    ((create_clips_plan 7 2 0).map ClipTask.duration).sum ≤ 7 := by
  have h := create_clips_plan_spec 7 2 0 (by norm_num) (by norm_num)
  refine ⟨?_, ?_⟩
  · rw [h.1, natFloor_seven_halves]
  · rw [h.2.2.1]
    calc (⌊(7 : ℚ) / 2⌋₊ : ℚ) * 2 ≤ 7 := h.2.2.2

/-- Closed form of the piece loop: starting at `current` it emits exactly
`⌊(chunkDur - current)/d⌋₊` pieces of length `d` at consecutive multiples
of `d` from `current`, with consecutive clip numbers from `idx + 1`. -/
theorem pieceLoop_eq (chunkDur : ℚ) (d : ℕ) (hd : 0 < d) :
    ∀ (fuel : ℕ) (current : ℚ) (idx : ℕ),
      ⌊(chunkDur - current) / (d : ℚ)⌋₊ < fuel →
      pieceLoop chunkDur d fuel current idx =
        (List.range ⌊(chunkDur - current) / (d : ℚ)⌋₊).map
          (fun j => ⟨current + j * d, d, idx + j + 1⟩) := by
  have hdq : (0 : ℚ) < (d : ℚ) := by exact_mod_cast hd
  intro fuel
  induction fuel with
  | zero => intro current idx h; omega
  | succ fuel ih =>
    intro current idx h
    by_cases hrem : chunkDur - current < (d : ℚ)
    · have hn : ⌊(chunkDur - current) / (d : ℚ)⌋₊ = 0 := by
        rw [Nat.floor_eq_zero, div_lt_one hdq]
        exact hrem
      have hcond : ¬ current + (d : ℚ) ≤ chunkDur := by
        intro hc
        exact absurd (by linarith : (d : ℚ) ≤ chunkDur - current)
          (not_le.mpr hrem)
      rw [hn]
      simp [pieceLoop, hcond]
    · push_neg at hrem
      have hcond : current + (d : ℚ) ≤ chunkDur := by linarith
      have hn1 : 1 ≤ ⌊(chunkDur - current) / (d : ℚ)⌋₊ := by
        apply Nat.le_floor
        rw [Nat.cast_one, le_div_iff₀ hdq, one_mul]
        exact hrem
      have hstep : ⌊(chunkDur - (current + (d : ℚ))) / (d : ℚ)⌋₊ =
          ⌊(chunkDur - current) / (d : ℚ)⌋₊ - 1 := by
        have h1 : (chunkDur - (current + (d : ℚ))) / (d : ℚ) =
            (chunkDur - current) / (d : ℚ) - 1 := by
          field_simp
          ring
        rw [h1, Nat.floor_sub_one]
      rw [pieceLoop, if_pos hcond, ih (current + d) (idx + 1) (by omega)]
      rw [hstep]
      conv_rhs => rw [show ⌊(chunkDur - current) / (d : ℚ)⌋₊ =
        (⌊(chunkDur - current) / (d : ℚ)⌋₊ - 1) + 1 by omega]
      rw [List.range_succ_eq_map, List.map_cons, List.map_map]
      congr 1
      · simp
      · apply List.map_congr_left
        intro j _
        simp only [Function.comp_apply]
        rw [PieceTask.mk.injEq]
        refine ⟨by push_cast; ring, rfl, by omega⟩

/-- Helper: closed form of `process_chunk_plan` for a positive clip
duration. -/
theorem process_chunk_plan_eq (chunkDur : ℚ) (d chunkIndex : ℕ)
    (hd : 0 < d) :
    process_chunk_plan chunkDur d chunkIndex =
      (List.range ⌊chunkDur / (d : ℚ)⌋₊).map
        (fun j => ⟨(j : ℚ) * d, d, chunkIndex * (300 / d) + j + 1⟩) := by
  have h0 : chunkDur - 0 = chunkDur := sub_zero chunkDur
  rw [process_chunk_plan,
    pieceLoop_eq chunkDur d hd (⌊chunkDur / (d : ℚ)⌋₊ + 1) 0
      (start_clip_index chunkIndex d) (by rw [h0]; omega),
    h0]
  apply List.map_congr_left
  intro j _
  rw [PieceTask.mk.injEq]
  exact ⟨zero_add _, rfl, rfl⟩

/-- Helper: a chunk whose probed duration is at most 300 seconds plans at
most `300 / d` clips. -/
theorem chunk_clip_count_le (chunkDur : ℚ) (d : ℕ) (hd : 0 < d)
    (hle : chunkDur ≤ 300) :
    ⌊chunkDur / (d : ℚ)⌋₊ ≤ 300 / d := by
  have hdq : (0 : ℚ) < (d : ℚ) := by exact_mod_cast hd
  calc ⌊chunkDur / (d : ℚ)⌋₊ ≤ ⌊(300 : ℚ) / (d : ℚ)⌋₊ := by
        apply Nat.floor_le_floor
        gcongr
    _ = 300 / d := by
        rw [show (300 : ℚ) = ((300 : ℕ) : ℚ) by norm_num, natFloor_cast_div]

/-- Helper: ordinal blocks of distinct chunks cannot collide: with per-chunk
offsets `i * q` and in-chunk positions below `q`, the 1-based numbers
differ. -/
theorem ordinal_sep {i i' j j' q : ℕ} (hne : i ≠ i') (hj : j < q)
    (hj' : j' < q) : i * q + j + 1 ≠ i' * q + j' + 1 := by
  rcases lt_or_gt_of_ne hne with hlt | hlt
  · have h1 : (i + 1) * q ≤ i' * q :=
      Nat.mul_le_mul_right q (Nat.succ_le_of_lt hlt)
    rw [add_mul, one_mul] at h1
    omega
  · have h1 : (i' + 1) * q ≤ i * q :=
      Nat.mul_le_mul_right q (Nat.succ_le_of_lt hlt)
    rw [add_mul, one_mul] at h1
    omega

/-- Helper: `⌊300/30⌋₊ = 10` with the casts exactly as they appear in
instances of `process_chunk_plan`. -/
theorem natFloor_300_30 : ⌊(300 : ℚ) / ((30 : ℕ) : ℚ)⌋₊ = 10 := by
  rw [show (300 : ℚ) = ((300 : ℕ) : ℚ) by norm_num, natFloor_cast_div]

/-- Helper: a 20-second chunk plans no 30-second clips. -/
theorem natFloor_20_30 : ⌊(20 : ℚ) / ((30 : ℕ) : ℚ)⌋₊ = 0 := by
  rw [Nat.floor_eq_zero]
  rw [div_lt_one (by norm_num)]
  norm_num

/-- C3: with `chunkLength = 300`, chunk `i`'s pieces carry the 1-based clip
numbers `i * (300 / d) + j + 1` for `j` below the chunk's own clip count —
so the first 0-based ordinal assigned inside chunk `i` is exactly
`i * (300 / d)` (`start_clip_index`), ordinals grow by one per planned
clip, and two chunks of probed duration at most 300 never assign the same
clip number, hence never the same output filename
`clip_{clip_number:03d}.mp4`. -/
theorem process_chunk_ordinals (d : ℕ) (hd : 0 < d) (chunkIndex : ℕ)
    (chunkDur : ℚ) :
    process_chunk_plan chunkDur d chunkIndex =
      (List.range ⌊chunkDur / (d : ℚ)⌋₊).map
        (fun j => ⟨(j : ℚ) * d, d, chunkIndex * (300 / d) + j + 1⟩) ∧
    (∀ (chunkIndex' : ℕ) (chunkDur' : ℚ), chunkIndex ≠ chunkIndex' →
      chunkDur ≤ 300 → chunkDur' ≤ 300 →
      ∀ t ∈ process_chunk_plan chunkDur d chunkIndex,
        ∀ t' ∈ process_chunk_plan chunkDur' d chunkIndex',
          t.clipNumber ≠ t'.clipNumber) := by
  refine ⟨process_chunk_plan_eq chunkDur d chunkIndex hd, ?_⟩
  intro i' dur' hne hle hle' t ht t' ht'
  rw [process_chunk_plan_eq chunkDur d chunkIndex hd] at ht
  rw [process_chunk_plan_eq dur' d i' hd] at ht'
  obtain ⟨j, hj, rfl⟩ := List.mem_map.mp ht
  obtain ⟨j', hj', rfl⟩ := List.mem_map.mp ht'
  rw [List.mem_range] at hj hj'
  have hq := chunk_clip_count_le chunkDur d hd hle
  have hq' := chunk_clip_count_le dur' d hd hle'
  exact ordinal_sep hne (by omega) (by omega)

/-- Witness for C3: with 30-second clips, chunk 0 plans the clip number 1
and chunk 1 plans the clip number 11, and those never collide. -/
theorem process_chunk_ordinals_witness :
    (⟨0, 30, 1⟩ : PieceTask) ∈ process_chunk_plan 300 30 0 ∧
    (⟨0, 30, 11⟩ : PieceTask) ∈ process_chunk_plan 300 30 1 ∧
    (⟨0, 30, 1⟩ : PieceTask).clipNumber ≠
      (⟨0, 30, 11⟩ : PieceTask).clipNumber := by
  have h0 := process_chunk_ordinals 30 (by norm_num) 0 300
  have hm0 : (⟨0, 30, 1⟩ : PieceTask) ∈ process_chunk_plan 300 30 0 := by
    rw [h0.1, natFloor_300_30]
    refine List.mem_map.mpr ⟨0, by simp, ?_⟩
    rw [PieceTask.mk.injEq]
    norm_num
  have hm1 : (⟨0, 30, 11⟩ : PieceTask) ∈ process_chunk_plan 300 30 1 := by
    have h1 := process_chunk_ordinals 30 (by norm_num) 1 300
    rw [h1.1, natFloor_300_30]
    refine List.mem_map.mpr ⟨0, by simp, ?_⟩
    rw [PieceTask.mk.injEq]
    norm_num
  exact ⟨hm0, hm1,
    h0.2 1 300 (by omega) (by norm_num) (by norm_num) _ hm0 _ hm1⟩

/-- Helper: the 620-second source is cut into 3 chunks. -/
theorem num_chunks_620_300 : num_chunks 620 300 = 3 := by
  rw [num_chunks, Nat.ceil_eq_iff (by norm_num)]
  norm_num

/-- C8: a 620-second source with chunk threshold 300 is planned as chunks
of durations 300, 300 and 20 seconds — the 20-second remainder is
forwarded as a final short chunk, not dropped at the chunking stage — and
with clip duration 30 the per-chunk clip plans contain 10, 10 and 0 clips,
20 in total. -/
theorem scenario_620_spec :
    (split_chunk_tasks 620 300).map Prod.snd = [300, 300, 20] ∧
    (process_chunk_plan 300 30 0).length = 10 ∧
    (process_chunk_plan 300 30 1).length = 10 ∧
    (process_chunk_plan 20 30 2).length = 0 ∧
    (process_chunk_plan 300 30 0).length + (process_chunk_plan 300 30 1).length
      + (process_chunk_plan 20 30 2).length = 20 := by
  have hc : (split_chunk_tasks 620 300).map Prod.snd = [300, 300, 20] := by
    simp only [split_chunk_tasks, num_chunks_620_300]
    decide
  have hl0 : (process_chunk_plan 300 30 0).length = 10 := by
    rw [process_chunk_plan_eq 300 30 0 (by norm_num), natFloor_300_30]
    simp
  have hl1 : (process_chunk_plan 300 30 1).length = 10 := by
    rw [process_chunk_plan_eq 300 30 1 (by norm_num), natFloor_300_30]
    simp
  have hl2 : (process_chunk_plan 20 30 2).length = 0 := by
    rw [process_chunk_plan_eq 20 30 2 (by norm_num), natFloor_20_30]
    simp
  exact ⟨hc, hl0, hl1, hl2, by rw [hl0, hl1, hl2]⟩

/-- Helper: a `filterMap` with an if-some-else-none body is a filter
followed by a map. -/
theorem filterMap_ite_eq {α β : Type} (p : α → Prop) [DecidablePred p]
    (f : α → β) (l : List α) :
    l.filterMap (fun a => if p a then some (f a) else none) =
      (l.filter (fun a => decide (p a))).map f := by
  induction l with
  | nil => rfl
  | cons a l ih =>
    by_cases h : p a
    · simp [List.filterMap_cons, List.filter_cons, h, ih]
    · simp [List.filterMap_cons, List.filter_cons, h, ih]

/-- C2: the caption re-slicing keeps exactly the captions whose shifted
interval overlaps `[0, duration)` — those with `stop - startTime > 0` and
`start - startTime < duration` — each clamped to
`[max 0 (start - startTime), min duration (stop - startTime)]`; in
particular a caption `[40, 42)` against a clip covering `[30, 60)` appears
at local `[10, 12)`, and a caption entirely outside `[30, 60)` does not
appear at all. -/
theorem segment_subtitles_spec (subs : List Caption)
    (startTime duration : ℚ) :
    segment_subtitles subs startTime duration =
      (subs.filter (fun s =>
        decide (0 < s.stop - startTime ∧ s.start - startTime < duration))).map
        (fun s => ⟨max 0 (s.start - startTime),
          min duration (s.stop - startTime), s.text⟩) ∧
    segment_subtitles [⟨40, 42, "caption"⟩] 30 30 = [⟨10, 12, "caption"⟩] ∧
    segment_subtitles [⟨61, 65, "outside"⟩] 30 30 = [] ∧
    segment_subtitles [⟨25, 29, "outside"⟩] 30 30 = [] := by
  refine ⟨filterMap_ite_eq _ _ subs, ?_, ?_, ?_⟩
  · rw [segment_subtitles, List.filterMap_cons]
    norm_num
  · rw [segment_subtitles, List.filterMap_cons]
    norm_num
  · rw [segment_subtitles, List.filterMap_cons]
    norm_num

/-- C4: for every source resolution with positive width and height, the
computed foreground target width and height are both even, and the target
height is exactly 1536 = `int(0.8 * 1920)` (already even, so unchanged by
the evening step), independently of the aspect ratio and of whether the
width later gets center-cropped to the 1080-pixel frame. -/
theorem compute_foreground_size_spec (w h : ℕ) (hw : 0 < w) (hh : 0 < h) :
    Even (compute_foreground_size w h).1 ∧
    (compute_foreground_size w h).2 = 1536 ∧
    Even (compute_foreground_size w h).2 := by
  have hc : ⌊(1920 : ℚ) * (8 / 10)⌋₊ = 1536 := by
    rw [show (1920 : ℚ) * (8 / 10) = ((1536 : ℕ) : ℚ) by norm_num,
      Nat.floor_natCast]
  rw [compute_foreground_size]
  simp only [ite_self, hc]
  refine ⟨?_, by norm_num, by decide⟩
  rw [Nat.even_iff]
  omega

/-- Witness for C4 at a 1920x1080 source. -/
theorem compute_foreground_size_spec_witness :
    (compute_foreground_size 1920 1080).2 = 1536 ∧
    Even (compute_foreground_size 1920 1080).1 := by
  have h := compute_foreground_size_spec 1920 1080 (by norm_num) (by norm_num)
  exact ⟨h.2.1, h.1⟩

/-- C5 counterexample: parsing the frame rate "30/0" raises
`ZeroDivisionError` and the probe propagates it — it does not return a
0 fps probe result. -/
theorem get_video_info_fps_div_zero_counterexample :
    get_video_info_fps 30 0 = Except.error "ZeroDivisionError" ∧
    get_video_info_fps 30 0 ≠ Except.ok 0 := by
  constructor
  · rfl
  · intro h
    exact Except.noConfusion h

/-- C5 amended: for every numerator, a rational frame rate with a zero
denominator makes the parse raise `ZeroDivisionError`, and
`get_video_info` re-raises it instead of returning a frame rate. -/
theorem get_video_info_fps_div_zero (num den : ℚ) (hden : den = 0) :
    get_video_info_fps num den = Except.error "ZeroDivisionError" := by
  subst hden
  rw [get_video_info_fps, parse_frame_rate, if_pos rfl]

/-- Witness for the amended C5 at numerator 30. -/
theorem get_video_info_fps_div_zero_witness :
    get_video_info_fps 30 0 = Except.error "ZeroDivisionError" :=
  get_video_info_fps_div_zero 30 0 rfl

/-- C6 counterexample: when `nvidia-smi` fails and the live test encode
fails but `h264_nvenc` is still listed by ffmpeg, the probe used by the
call sites in `video_editor.py` returns true, so the render call site
attempts the hardware encoder first even though two of the three checks
fail. -/
theorem check_gpu_support_counterexample :
    processor_check_gpu_support ⟨some false, some true, some false⟩ = false ∧
    ¬ ((⟨some false, some true, some false⟩ : GpuEnv).nvidiaSmiOk = some true ∧
      (⟨some false, some true, some false⟩ : GpuEnv).testEncodeOk = some true) ∧
    editor_check_gpu_support ⟨some false, some true, some false⟩ = true ∧
    (create_styled_clip_sync
      ⟨⟨some false, some true, some false⟩, true, true⟩).1 =
      [Encoder.nvenc] := by
  refine ⟨rfl, ?_, rfl, rfl⟩
  intro h
  exact Option.noConfusion h.1 (fun hb => Bool.noConfusion hb)

/-- C6 amended: the processor-side probe returns true exactly when all
three checks pass (vendor tool, encoder registration, live test encode),
but the editor-side probe — the one consulted by the clip-render and
clip-planning call sites in `video_editor.py` — returns true exactly when
the encoder is listed, regardless of the other two checks. -/
theorem check_gpu_support_spec (env : GpuEnv) :
    (processor_check_gpu_support env = true ↔
      (env.nvidiaSmiOk = some true ∧ env.nvencListed = some true ∧
        env.testEncodeOk = some true)) ∧
    (editor_check_gpu_support env = true ↔ env.nvencListed = some true) := by
  obtain ⟨smi, listed, test⟩ := env
  rcases smi with _ | (_ | _) <;> rcases listed with _ | (_ | _) <;>
    rcases test with _ | (_ | _) <;> decide

/-- C7: when the GPU path is taken and the hardware encode raises, the
render retries exactly once with the software encoder; when both raise the
render returns False to its caller instead of raising, and a failed
ordinal removes nothing else from the collected results; and whenever the
software encode would succeed, the render returns success. -/
theorem create_styled_clip_fallback (env : RenderEnv) :
    (editor_check_gpu_support env.gpu = true → env.nvencEncodeOk = false →
      (create_styled_clip_sync env).1 = [Encoder.nvenc, Encoder.libx264]) ∧
    (env.nvencEncodeOk = false → env.x264EncodeOk = false →
      create_styled_clip env = false) ∧
    (env.x264EncodeOk = true → create_styled_clip env = true) ∧
    (∀ pre post : List (Option String),
      collect_created_clips (pre ++ none :: post) =
        collect_created_clips pre ++ collect_created_clips post) := by
  obtain ⟨⟨smi, listed, test⟩, hw, sw⟩ := env
  refine ⟨?_, ?_, ?_, fun pre post => by simp [collect_created_clips]⟩ <;>
    rcases listed with _ | (_ | _) <;> cases hw <;> cases sw <;>
      simp [create_styled_clip_sync, create_styled_clip,
        editor_check_gpu_support]

/-- Witness for C7: with the encoder listed, a failing hardware encode and
a working software encode, both paths are attempted and the render
succeeds; with both encodes failing it reports failure; a None in the
middle of the results drops nothing else. -/
theorem create_styled_clip_fallback_witness :
    (create_styled_clip_sync
      ⟨⟨some true, some true, some true⟩, false, true⟩).1 =
      [Encoder.nvenc, Encoder.libx264] ∧
    create_styled_clip ⟨⟨some true, some true, some true⟩, false, false⟩ =
      false ∧
    create_styled_clip ⟨⟨some true, some true, some true⟩, false, true⟩ =
      true ∧
    collect_created_clips [some "clip_001.mp4", none, some "clip_003.mp4"] =
      collect_created_clips [some "clip_001.mp4"] ++
        collect_created_clips [some "clip_003.mp4"] := by
  have h1 := create_styled_clip_fallback
    ⟨⟨some true, some true, some true⟩, false, true⟩
  have h2 := create_styled_clip_fallback
    ⟨⟨some true, some true, some true⟩, false, false⟩
  refine ⟨h1.1 rfl rfl, h2.2.1 rfl rfl, h1.2.2.1 rfl, ?_⟩
  have h3 := h1.2.2.2 [some "clip_001.mp4"] [some "clip_003.mp4"]
  simpa using h3

/-- Helper: the deletion guard holds exactly for positions with a present,
successful publish result. -/
theorem cleanup_should_delete_iff (i : ℕ)
    (uploadResults : List UploadResult) :
    cleanup_should_delete i uploadResults = true ↔
      ∃ hr : i < uploadResults.length,
        (uploadResults.get ⟨i, hr⟩).success = true := by
  rw [cleanup_should_delete, Bool.and_eq_true, decide_eq_true_iff]
  constructor
  · rintro ⟨hlen, hsucc⟩
    refine ⟨hlen, ?_⟩
    rw [List.get_eq_getElem]
    rwa [List.getD_eq_getElem uploadResults _ hlen] at hsucc
  · rintro ⟨hlen, hsucc⟩
    refine ⟨hlen, ?_⟩
    rw [List.getD_eq_getElem uploadResults _ hlen]
    rwa [List.get_eq_getElem] at hsucc

/-- C9: after publishing, a produced clip position is in the deleted set
iff its publish result exists at the same position and reports success;
every position whose result is absent or unsuccessful lands in the
preserved set (kept on disk for a retry); and the process-level cleanup
(which runs only when some upload succeeded) also deletes only
same-position successes. -/
theorem cleanup_successful_files_spec (clips : List String)
    (results : List UploadResult) (i : ℕ) (h : i < clips.length) :
    (i ∈ cleanup_deleted_indices clips results ↔
      ∃ hr : i < results.length, (results.get ⟨i, hr⟩).success = true) ∧
    ((¬ ∃ hr : i < results.length, (results.get ⟨i, hr⟩).success = true) →
      i ∈ cleanup_preserved_indices clips results) ∧
    (i ∈ process_video_file_deleted_indices clips results →
      ∃ hr : i < results.length, (results.get ⟨i, hr⟩).success = true) := by
  have hdel : i ∈ cleanup_deleted_indices clips results ↔
      ∃ hr : i < results.length, (results.get ⟨i, hr⟩).success = true := by
    rw [cleanup_deleted_indices, List.mem_filter, List.mem_range]
    rw [cleanup_should_delete_iff]
    exact ⟨fun hx => hx.2, fun hx => ⟨h, hx⟩⟩
  refine ⟨hdel, ?_, ?_⟩
  · intro hno
    rw [cleanup_preserved_indices, List.mem_filter, List.mem_range]
    refine ⟨h, ?_⟩
    rw [Bool.not_eq_true']
    rw [← Bool.not_eq_true, cleanup_should_delete_iff]
    exact hno
  · intro hin
    rw [process_video_file_deleted_indices] at hin
    by_cases hs : 0 < (results.filter (fun r => r.success)).length
    · rw [if_pos hs] at hin
      exact hdel.mp hin
    · rw [if_neg hs] at hin
      exact absurd hin (List.not_mem_nil i)

/-- Witness for C9: with clips at positions 0 and 1 and a single
successful publish result, position 0 is deleted and position 1 — whose
result is absent — is preserved. -/
theorem cleanup_successful_files_spec_witness :
    0 ∈ cleanup_deleted_indices ["clip_000.mp4", "clip_001.mp4"]
      [⟨true⟩] ∧
    1 ∈ cleanup_preserved_indices ["clip_000.mp4", "clip_001.mp4"]
      [⟨true⟩] := by
  have h0 := cleanup_successful_files_spec ["clip_000.mp4", "clip_001.mp4"]
    [⟨true⟩] 0 (by norm_num)
  have h1 := cleanup_successful_files_spec ["clip_000.mp4", "clip_001.mp4"]
    [⟨true⟩] 1 (by norm_num)
  refine ⟨h0.1.mpr ⟨by norm_num, rfl⟩, h1.2.1 ?_⟩
  rintro ⟨hr, _⟩
  simp at hr

/-- C10: if the probe inside the chunk-splitting step raises, the
exception is swallowed and `split_into_chunks` returns the one-element
list holding the original source path, so the job goes on processing the
unsplit source as a single chunk. -/
theorem split_into_chunks_fallback (videoPath : String)
    (chunkDuration : ℕ) (chunkOk : ℕ → Bool) (e : String) :
    split_into_chunks videoPath chunkDuration (Except.error e) chunkOk =
      [videoPath] := by
  rfl

end TGBot
